import Mathlib

/-!
Verification development for the ceramic-stamp-generator SVG-to-STL pipeline
(converter/convert.py and backend/main.py), shallowly embedded over ℚ.

Conventions:
* 2D points are pairs of rationals; shapely Polygon objects are embedded as
  an exterior ring plus a list of interior (hole) rings (RPoly below).
* shapely geometry objects flowing through the pipeline are embedded as the
  SGeom sum type (LineString / Polygon / MultiPolygon / GeometryCollection).
* External geometry/mesh library operations (shapely make_valid, unary_union,
  buffer; trimesh extrusion, boxes, booleans) are parameters gathered in the
  Kernel structure; the repository functions are embedded as functions over a
  Kernel, faithful to the Python control flow, and theorems about control-flow
  properties hold for every Kernel.  Concrete Kernel instances (a trivial one,
  a rectangle-set based one, a point-set based mesh one) are provided for
  witnesses and counterexamples.
* Python ConvertError is embedded as an error String carrying the message.
-/

/-- A 2D point with rational coordinates (shapely works over floats; the
embedding uses exact rationals). -/
abbrev Pt : Type := ℚ × ℚ

/-- shapely Polygon: an exterior ring and a list of interior (hole) rings.
Rings are vertex lists; shapely closes rings implicitly. -/
structure RPoly where
  ext : List Pt
  holes : List (List Pt)
deriving DecidableEq

/-- The shapely geometry values that flow through converter/convert.py:
LineString, Polygon, MultiPolygon and GeometryCollection. -/
inductive SGeom where
  | lineS (pts : List Pt)
  | poly (p : RPoly)
  | mpoly (ps : List RPoly)
  | gcol (gs : List SGeom)

/-- Decidable equality for Except values with decidable components. -/
instance instDecEqExcept {ε α : Type} [DecidableEq ε] [DecidableEq α] :
    DecidableEq (Except ε α) := fun x y =>
  match x, y with
  | .error a, .error b =>
    if h : a = b then isTrue (congrArg Except.error h)
    else isFalse (fun hh => h (Except.error.inj hh))
  | .ok a, .ok b =>
    if h : a = b then isTrue (congrArg Except.ok h)
    else isFalse (fun hh => h (Except.ok.inj hh))
  | .error _, .ok _ => isFalse (fun hh => Except.noConfusion hh)
  | .ok _, .error _ => isFalse (fun hh => Except.noConfusion hh)

/-- Twice the signed shoelace area of the ring starting at first, with the
remaining vertices given; the ring is closed back to first. -/
def shoeAux (first : Pt) : List Pt → ℚ
  | [] => 0
  | [p] => p.1 * first.2 - first.1 * p.2
  | p :: q :: rest => (p.1 * q.2 - q.1 * p.2) + shoeAux first (q :: rest)

/-- Twice the signed area of a ring (vertex list, implicitly closed). -/
def ringArea2 : List Pt → ℚ
  | [] => 0
  | p :: rest => shoeAux p (p :: rest)

/-- shapely Polygon(ring).area: the absolute shoelace area of one ring.
Used by the hole filter in _remove_small_holes. -/
def ringArea (r : List Pt) : ℚ := |ringArea2 r| / 2

/-- shapely Polygon.area for a polygon with holes: exterior area minus the
hole areas (the polygons reaching the mesh loop are valid). -/
def polyArea (p : RPoly) : ℚ := ringArea p.ext - (p.holes.map ringArea).sum

/-- shapely Polygon.is_empty. -/
def isEmptyP (p : RPoly) : Bool := p.ext.isEmpty

mutual

/-- shapely Geometry.is_empty for the embedded geometry values. -/
def isEmptySG : SGeom → Bool
  | .lineS pts => pts.isEmpty
  | .poly p => isEmptyP p
  | .mpoly ps => ps.all isEmptyP
  | .gcol gs => isEmptySGList gs

/-- is_empty over a list of geometries (a collection is empty when all of its
members are). -/
def isEmptySGList : List SGeom → Bool
  | [] => true
  | g :: gs => isEmptySG g && isEmptySGList gs

end

/-! Error and warning messages of converter/convert.py (ConvertError carries a
message string; apostrophes of the originals are dropped, which does not
affect which distinct error each message denotes). -/

/-- ConvertError raised by _has_raster_images detection in _extract_geometry
(the spec name is UnsupportedContent). -/
def rasterMsg : String := "The SVG contains embedded raster images. Please upload a vector-only SVG (no <image> tags)."

/-- ConvertError raised when no shapes were recognized (spec: EmptyGeometry). -/
def noShapesMsg : String := "No vector paths/shapes found. Please export SVG with paths (not text/raster)."

/-- ConvertError raised by _path_to_linestring when numbers precede any command. -/
def numbersBeforeMsg : String := "SVG path has numbers before any command."

/-- ConvertError raised by the unreachable else-branch of _path_to_linestring
(spec: UnsupportedPathCommand). -/
def unsupportedPathMsg : String := "Unsupported SVG path command. Please convert curves to line segments (no C/Q/A)."

/-- ConvertError raised by _normalize_to_size on a zero-size bounding box
(spec: DegenerateBounds). -/
def degenerateBoundsMsg : String := "SVG has invalid geometry bounds (zero area)."

/-- ConvertError raised by _normalize_to_size when the scale factor is nonpositive. -/
def scaleFactorFailMsg : String := "Could not compute scale factor from SVG bounds."

/-- Warning appended by _normalize_to_size when the scale factor is below 0.5. -/
def scaleWarnMsg : String := "The SVG was scaled down significantly; very fine details may be lost in printing."

/-- ConvertError raised by _buffer_to_min_line when the geometry became empty
(spec: EmptyGeometry). -/
def emptyAfterProcessMsg : String := "After processing, geometry became empty. Try increasing minimum line thickness."

/-- Warning appended by _buffer_to_min_line when the half-width exceeds 1.0. -/
def minLineWarnMsg : String := "Minimum line thickness is large; small details may be merged."

/-- Warning appended by _remove_small_holes naming the number of removed holes. -/
def holeMsg (n : ℕ) : String := "Removed " ++ toString n ++ " small hole(s) to improve printability."

/-- ConvertError raised by _clean_geometry when the union is empty
(spec: EmptyGeometry). -/
def emptyAfterUnionMsg : String := "Geometry is empty after union/cleanup. Ensure your SVG has closed shapes."

/-- ConvertError raised when extrude_polygon raised (spec: MeshBuildFailure). -/
def extrudeFailMsg (e : String) : String := "Could not extrude polygon: " ++ e

/-- ConvertError raised when no region produced a mesh (spec: EmptyResult). -/
def emptyResultMsg : String := "No printable geometry after processing. Try increasing min line thickness or simplifying the SVG."

/-- ConvertError raised for a mode other than raised/engraved. -/
def modeMsg : String := "Mode must be raised or engraved."

/-- Warning appended in raised mode when OpenSCAD is unavailable. -/
def scadRaisedWarnMsg : String := "OpenSCAD not found in container; exported as multi-solid STL (still printable)."

/-- Warning appended in engraved mode when OpenSCAD is unavailable. -/
def scadEngravedWarnMsg : String := "OpenSCAD not found in container; engraved mode approximated (no boolean)."

/-- ConvertError raised when the final mesh is empty. -/
def meshEmptyMsg : String := "Mesh generation failed (empty)."

/-- Models the uncaught Python AttributeError hit when _clean_geometry reaches
geom.geoms on a geometry that is neither Polygon, MultiPolygon nor
GeometryCollection. -/
def pyAttrErrMsg : String := "AttributeError: geometry object has no attribute geoms"

/-! The path interpreter _path_to_linestring (convert.py lines 86-161). -/

/-- One atom of an SVG path d-string after lexical splitting: a command letter
or a numeric literal (numbers are modeled as exact rationals). -/
inductive PathTok where
  | pcmd (c : Char)
  | pnum (q : ℚ)
deriving DecidableEq

/-- The command letters matched by the first alternative of the tokenizer
regex in _path_to_linestring: [MmLlHhVvZz]. -/
def moveCmds : List Char := ['M', 'm', 'L', 'l', 'H', 'h', 'V', 'v', 'Z', 'z']

/-- Models re.findall of the tokenizer regex in _path_to_linestring: numeric
literals always match the second alternative; a command letter matches only
when it is one of M/m/L/l/H/h/V/v/Z/z.  Every other character of the d-string
(in particular the curve commands C/c, Q/q, A/a and S/s/T/t) matches neither
alternative and is silently dropped from the token stream. -/
def findTokens (atoms : List PathTok) : List PathTok :=
  atoms.filter fun t =>
    match t with
    | .pcmd c => moveCmds.contains c
    | .pnum _ => true

/-- Failure modes of the embedded path interpreter. -/
inductive PathErr where
  | convErr (msg : String)
  | pyExc
  | noTerm
deriving DecidableEq

/-- read_num in _path_to_linestring: reads tokens[i] as a float.  A command
token or an exhausted stream raises an uncaught Python exception
(ValueError / IndexError), modeled as PathErr.pyExc. -/
def readNum (toks : List PathTok) (i : ℕ) : Except PathErr (ℚ × ℕ) :=
  match toks.get? i with
  | some (.pnum q) => .ok (q, i + 1)
  | some (.pcmd _) => .error .pyExc
  | none => .error .pyExc

/-- Appends the subpath start point, as the close-path handling does. -/
def closePts (start : Option Pt) (pts : List Pt) : List Pt :=
  pts ++ (match start with | some s => [s] | none => [])

/-- One dispatch of the command cmd at token position i in the body of the
while-loop of _path_to_linestring, returning the updated loop state
(i, cmd, x, y, start, pts).  The final else-branch is the raise of the
unsupported-command ConvertError; it is unreachable from findTokens output. -/
def stepCmd (toks : List PathTok) (i : ℕ) (c : Char) (x y : ℚ)
    (start : Option Pt) (pts : List Pt) :
    Except PathErr (ℕ × Char × ℚ × ℚ × Option Pt × List Pt) :=
  if c == 'M' || c == 'm' then do
    let (dx, i₁) ← readNum toks i
    let (dy, i₂) ← readNum toks i₁
    let x' := if c == 'm' then x + dx else dx
    let y' := if c == 'm' then y + dy else dy
    .ok (i₂, (if c == 'm' then 'l' else 'L'), x', y', some (x', y'), pts ++ [(x', y')])
  else if c == 'L' || c == 'l' then do
    let (dx, i₁) ← readNum toks i
    let (dy, i₂) ← readNum toks i₁
    let x' := if c == 'l' then x + dx else dx
    let y' := if c == 'l' then y + dy else dy
    .ok (i₂, c, x', y', start, pts ++ [(x', y')])
  else if c == 'H' || c == 'h' then do
    let (dx, i₁) ← readNum toks i
    let x' := if c == 'h' then x + dx else dx
    .ok (i₁, c, x', y, start, pts ++ [(x', y)])
  else if c == 'V' || c == 'v' then do
    let (dy, i₁) ← readNum toks i
    let y' := if c == 'v' then y + dy else dy
    .ok (i₁, c, x, y', start, pts ++ [(x, y')])
  else if c == 'Z' || c == 'z' then
    .ok (i, c, x, y, start, closePts start pts)
  else
    .error (.convErr unsupportedPathMsg)

/-- The while-loop of _path_to_linestring.  fuel bounds the iteration count:
the Python loop does not terminate when a number token follows a close
command (the Z dispatch does not advance i), which the model reports as
PathErr.noTerm. -/
def pathLoop (toks : List PathTok) :
    ℕ → ℕ → Option Char → ℚ → ℚ → Option Pt → List Pt → Except PathErr (List Pt)
  | 0, _, _, _, _, _, _ => .error .noTerm
  | fuel + 1, i, cmd, x, y, start, pts =>
    match toks.get? i with
    | none => .ok pts
    | some (.pcmd c) =>
      if c == 'Z' || c == 'z' then
        pathLoop toks fuel (i + 1) (some c) x y start (closePts start pts)
      else
        match stepCmd toks (i + 1) c x y start pts with
        | .error e => .error e
        | .ok (i', c', x', y', start', pts') =>
          pathLoop toks fuel i' (some c') x' y' start' pts'
    | some (.pnum _) =>
      match cmd with
      | none => .error (.convErr numbersBeforeMsg)
      | some c =>
        match stepCmd toks i c x y start pts with
        | .error e => .error e
        | .ok (i', c', x', y', start', pts') =>
          pathLoop toks fuel i' (some c') x' y' start' pts'

/-- _path_to_linestring (convert.py lines 86-161) on the atom stream of the
d-string: tokenize via findTokens, run the command loop from the origin
cursor, return none when fewer than 3 points result (the path is dropped). -/
def pathToLinestring (atoms : List PathTok) : Except PathErr (Option (List Pt)) :=
  let toks := findTokens atoms
  if toks.isEmpty then .ok none
  else
    match pathLoop toks (4 * toks.length + 4) 0 none 0 0 none [] with
    | .error e => .error e
    | .ok pts => if pts.length < 3 then .ok none else .ok (some pts)

/-! The raster-content check _has_raster_images (convert.py lines 57-73) and
the extractor _extract_geometry (lines 163-215). -/

/-- An SVG/XML element: tag localname (namespaces already resolved, as by
lxml QName(el).localname), attribute list, children. -/
inductive XElem where
  | node (tag : String) (attrs : List (String × String)) (children : List XElem)

/-- The tag of an element. -/
def XElem.tag : XElem → String
  | .node t _ _ => t

/-- The attributes of an element. -/
def XElem.attrs : XElem → List (String × String)
  | .node _ a _ => a

/-- Python el.attrib.get(k): the first binding of key k. -/
def getAttr (el : XElem) (k : String) : Option String :=
  (el.attrs.find? (fun kv => kv.1 == k)).map (·.2)

mutual

/-- lxml root.iter(): the element itself followed by all descendants in
document order. -/
def iterE : XElem → List XElem
  | .node t a cs => .node t a cs :: iterEList cs

/-- iter over a forest of elements. -/
def iterEList : List XElem → List XElem
  | [] => []
  | e :: es => iterE e ++ iterEList es

end

/-- Python str.lower() for the ASCII strings handled here: lowercase every
character. -/
def pyLower (s : String) : String := ⟨s.data.map Char.toLower⟩

/-- Whether pat is a leading piece of cs (character lists, exact case). -/
def chLeads : List Char → List Char → Bool
  | [], _ => true
  | _ :: _, [] => false
  | a :: as, b :: bs => a == b && chLeads as bs

/-- Whether pat is a leading piece of cs, comparing case-insensitively
(pat is given in lowercase). -/
def chLeadsCI : List Char → List Char → Bool
  | [], _ => true
  | _ :: _, [] => false
  | a :: as, b :: bs => a == b.toLower && chLeadsCI as bs

/-- Python s.startswith(t). -/
def strStarts (s t : String) : Bool := chLeads t.toList s.toList

/-- Occurrence of needle inside hay (Python `needle in hay`). -/
def chHas (needle : List Char) : List Char → Bool
  | [] => needle.isEmpty
  | c :: rest => chLeads needle (c :: rest) || chHas needle rest

/-- Python substring containment test `t in s`. -/
def strHas (s t : String) : Bool := chHas t.toList s.toList

/-- The raster file extensions of the regex in _has_raster_images. -/
def rasterExts : List (List Char) :=
  [String.toList "png", String.toList "jpg", String.toList "jpeg",
   String.toList "gif", String.toList "bmp", String.toList "webp"]

/-- After a dot: does one of the raster extensions follow (case-insensitive),
itself followed by a question mark, a hash, or the end of the string?  This is
the (png|jpg|jpeg|gif|bmp|webp)(\?|#|$) tail of the regex. -/
def extHere (cs : List Char) : Bool :=
  rasterExts.any fun e =>
    chLeadsCI e cs &&
      (match cs.drop e.length with
       | [] => true
       | c :: _ => c == '?' || c == '#')

/-- re.search of the raster-extension regex in _has_raster_images: some dot in
the string is followed by a recognized raster extension and then by a query,
fragment or end of string (case-insensitive, re.I). -/
def rasterExtSearch (s : String) : Bool := go s.toList
where
  /-- Scan for a dot position whose tail matches. -/
  go : List Char → Bool
    | [] => false
    | c :: rest => (c == '.' && extHere rest) || go rest

/-- The two attribute keys checked by _has_raster_images: plain href and the
xlink-namespaced href. -/
def hrefKeys : List String :=
  ["href", "\x7bhttp://www.w3.org/1999/xlink\x7dhref"]

/-- The per-element raster trigger of _has_raster_images: the element is an
image tag, or some href attribute is a data URI without the image/svg+xml
marker, or some href matches the raster-extension regex. -/
def elemRaster (el : XElem) : Bool :=
  pyLower el.tag == "image" ||
    hrefKeys.any fun k =>
      match getAttr el k with
      | none => false
      | some href =>
        (strStarts href "data:" && !(strHas href "image/svg+xml")) ||
          rasterExtSearch href

/-- _has_raster_images (convert.py lines 57-73): scan every element in
document order and report the first raster trigger. -/
def hasRasterImages (root : XElem) : Bool := (iterE root).any elemRaster

/-- The recognized shape tags _ALLOWED_SHAPES of convert.py. -/
def allowedShapes : List String :=
  ["path", "rect", "circle", "ellipse", "polygon", "polyline"]

/-- _extract_geometry (convert.py lines 163-215) after successful XML parsing.
The per-shape conversion (path interpretation, rect/circle/ellipse/polygon
handling, lines 178-210) is abstracted as the parameter shapeOf, which returns
the geometry contributed by one allowed-shape element (none when the element
is dropped, e.g. a path with fewer than 3 points); the raster rejection and
the empty-geometry check do not depend on it. -/
def extractGeometry (shapeOf : XElem → Option SGeom) (root : XElem) :
    Except String (List SGeom) :=
  if hasRasterImages root then .error rasterMsg
  else
    if ((iterE root).filterMap fun el =>
        if allowedShapes.contains (pyLower el.tag) then shapeOf el else none).isEmpty then
      .error noShapesMsg
    else
      .ok ((iterE root).filterMap fun el =>
        if allowedShapes.contains (pyLower el.tag) then shapeOf el else none)

/-- The raster MIME markers named by the spec (claim-side definition, used
only to state what a recognized raster reference is; the code-side behaviour
is hasRasterImages). -/
def specRasterMimes : List String :=
  ["image/png", "image/jpeg", "image/jpg", "image/gif", "image/bmp", "image/webp"]

/-- Claim-side notion of a raster reference in an href, following the words
of the spec: a recognized raster extension or a recognized raster MIME
marker. -/
def specRasterHref (href : String) : Bool :=
  rasterExtSearch href || specRasterMimes.any fun m => strHas href m

/-! Bounding boxes and affine maps on embedded geometry. -/

/-- Accumulating pass of shapely bounds: fold min/max of the coordinates over
the vertex list, starting from the accumulator (minx, miny, maxx, maxy). -/
def bfold : List Pt → ℚ × ℚ × ℚ × ℚ → ℚ × ℚ × ℚ × ℚ
  | [], acc => acc
  | p :: ps, (a, b, c, d) => bfold ps (min a p.1, min b p.2, max c p.1, max d p.2)

/-- shapely Geometry.bounds = (minx, miny, maxx, maxy) over the vertices;
none for an empty vertex list (shapely yields an empty bounds tuple there,
which the Python code cannot unpack). -/
def boundsOf : List Pt → Option (ℚ × ℚ × ℚ × ℚ)
  | [] => none
  | p :: ps => some (bfold ps (p.1, p.2, p.1, p.2))

/-- Apply a point map to every vertex of a polygon (shapely affine transforms
map every coordinate of every ring). -/
def mapPtsP (f : Pt → Pt) (p : RPoly) : RPoly :=
  ⟨p.ext.map f, p.holes.map (List.map f)⟩

/-- All vertices of a polygon, exterior first. -/
def vertsP (p : RPoly) : List Pt := p.ext ++ p.holes.flatten

/-- All vertices of a multipolygon. -/
def vertsMP (ps : List RPoly) : List Pt := (ps.map vertsP).flatten

/-! The hole filter _remove_small_holes (convert.py lines 264-277) and the
union/repair step _clean_geometry (lines 279-299). -/

/-- The hardcoded hole-area threshold passed by _clean_geometry:
0.35 * 0.35 square units. -/
def holeThresh : ℚ := (35 / 100) * (35 / 100)

/-- _remove_small_holes (convert.py lines 264-277): keep the interior rings
whose ring area is at least the threshold, rebuild the polygon from the
unchanged exterior and the kept rings, and append one warning naming the
number of removed rings when any was removed. -/
def removeSmallHoles (p : RPoly) (minHoleArea : ℚ) (w : List String) :
    RPoly × List String :=
  if p.holes.isEmpty then (p, w)
  else
    let keep := p.holes.filter fun r => decide (minHoleArea ≤ ringArea r)
    let removed := p.holes.length - keep.length
    (⟨p.ext, keep⟩, if removed ≠ 0 then w ++ [holeMsg removed] else w)

/-- The post-union wrapping of _clean_geometry lines 287-291: a single
Polygon becomes a one-member MultiPolygon, a GeometryCollection keeps only
its Polygon members, anything else passes through. -/
def cleanWrap : SGeom → SGeom
  | .poly p => SGeom.mpoly [p]
  | .gcol gs => SGeom.mpoly (gs.filterMap fun x =>
      match x with | .poly p => some p | _ => none)
  | other => other

/-- One iteration of the hole-removal loop of _clean_geometry lines 295-298:
append the cleaned polygon, thread the warnings. -/
def cleanStep (acc : List RPoly × List String) (p : RPoly) : List RPoly × List String :=
  match removeSmallHoles p holeThresh acc.2 with
  | (p2, w2) => (acc.1 ++ [p2], w2)

/-- _clean_geometry (convert.py lines 279-299), parameterized by the shapely
operations it calls: make_valid (mkValid; the try/except around it is modeled
by totality) and unary_union (uUnion, applied to one geometry).  After the
union, the result is wrapped by cleanWrap; an empty result raises; then every
polygon goes through removeSmallHoles at the fixed threshold via cleanStep,
threading the warnings list.  A LineString surviving to geom.geoms would
raise an uncaught Python AttributeError, modeled as pyAttrErrMsg. -/
def cleanGeometry (mkValid : SGeom → SGeom) (uUnion : List SGeom → SGeom)
    (g : SGeom) (w : List String) : Except String (List RPoly × List String) :=
  let g3 := cleanWrap (uUnion [mkValid g])
  if isEmptySG g3 then .error emptyAfterUnionMsg
  else
    match g3 with
    | .mpoly ps => .ok (ps.foldl cleanStep ([], w))
    | _ => .error pyAttrErrMsg

/-! The scaler/centerer _normalize_to_size (convert.py lines 217-235). -/

/-- _normalize_to_size (convert.py lines 217-235) on a MultiPolygon (the type
it receives in the pipeline): read the bounds, reject a zero-width or
zero-height box, scale uniformly about the origin by target / max(w, h),
translate so the scaled bounding-box center sits at the origin, and append a
warning when the scale factor is below 0.5. -/
def normalizeToSize (ps : List RPoly) (target : ℚ) (w : List String) :
    Except String (List RPoly × List String) :=
  match boundsOf (vertsMP ps) with
  | none => .error "ValueError: empty geometry has no bounds to unpack"
  | some (mnx, mny, mxx, mxy) =>
    let wd := mxx - mnx
    let ht := mxy - mny
    if wd ≤ 0 ∨ ht ≤ 0 then .error degenerateBoundsMsg
    else
      let s := target / max wd ht
      if s ≤ 0 then .error scaleFactorFailMsg
      else
        let ps1 := ps.map (mapPtsP fun q => (s * q.1, s * q.2))
        match boundsOf (vertsMP ps1) with
        | none => .error "ValueError: empty geometry has no bounds to unpack"
        | some (m2x, m2y, M2x, M2y) =>
          let cx := (m2x + M2x) / 2
          let cy := (m2y + M2y) / 2
          let ps2 := ps1.map (mapPtsP fun q => (q.1 - cx, q.2 - cy))
          let w' := if s < 1 / 2 then w ++ [scaleWarnMsg] else w
          .ok (ps2, w')

/-! The minimum-width enforcer _buffer_to_min_line (convert.py lines 237-262)
and the mesh stage, over an abstract library kernel. -/

/-- shapely cap_style=2: flat end caps. -/
def capFlat : ℕ := 2

/-- shapely join_style=2: mitred joins. -/
def joinMitre : ℕ := 2

/-- The external geometry/mesh library operations used by convert.py,
gathered as parameters: shapely make_valid, unary_union (on a list),
Geometry.buffer(dist, cap_style, join_style), Geometry.buffer(0); trimesh
extrude_polygon (which may raise an internal error), box, translation,
concatenation, boolean union/difference, the OpenSCAD availability flag,
mesh emptiness, mesh cleanup (process(validate=True)) and mesh bounds. -/
structure Kernel where
  mkValid : SGeom → SGeom
  uUnion : List SGeom → SGeom
  buffer : SGeom → ℚ → ℕ → ℕ → SGeom
  buffer0 : SGeom → SGeom
  M : Type
  box : ℚ → ℚ → ℚ → M
  translateM : M → ℚ → ℚ → ℚ → M
  extrude : RPoly → ℚ → Except String M
  concatM : List M → M
  boolUnion : List M → M
  boolDiff : List M → M
  scadExists : Bool
  isEmptyM : M → Bool
  processM : M → M
  boundsM : M → (ℚ × ℚ × ℚ) × (ℚ × ℚ × ℚ)

/-- _buffer_to_min_line (convert.py lines 237-262): a LineString is buffered
outward by half = max(min_line/2, 0.01) with flat caps and mitred joins; a
Polygon or MultiPolygon is re-buffered by zero distance; anything else is
buffered by zero inside try/except (modeled by the total kernel operation).
The singleton list is unioned, cleaned by another zero buffer, rejected when
empty, and the large-width warning is appended exactly when half exceeds 1. -/
def bufferToMinLine (K : Kernel) (g : SGeom) (minLine : ℚ) (w : List String) :
    Except String (SGeom × List String) :=
  let half := max (minLine / 2) (1 / 100)
  let polys : List SGeom :=
    match g with
    | .lineS _ => [K.buffer g half capFlat joinMitre]
    | .poly _ => [K.buffer0 g]
    | .mpoly _ => [K.buffer0 g]
    | _ => [K.buffer0 g]
  let u := if polys.isEmpty then g else K.uUnion polys
  let u2 := K.buffer0 u
  if isEmptySG u2 then .error emptyAfterProcessMsg
  else .ok (u2, if 1 < half then w ++ [minLineWarnMsg] else w)

/-- The relief loop of convert_svg_to_stl (convert.py lines 339-349): skip an
empty or nonpositive-area region silently; extrude the others by relief_mm
and lift them by base_mm; a raising extrusion aborts with the
could-not-extrude ConvertError. -/
def reliefLoop (K : Kernel) (ps : List RPoly) (reliefMm baseMm : ℚ) :
    Except String (List K.M) :=
  match ps with
  | [] => .ok []
  | p :: rest =>
    if isEmptyP p = true ∨ polyArea p ≤ 0 then reliefLoop K rest reliefMm baseMm
    else
      match K.extrude p reliefMm with
      | .error e => .error (extrudeFailMsg e)
      | .ok m =>
        match reliefLoop K rest reliefMm baseMm with
        | .error e => .error e
        | .ok ms => .ok (K.translateM m 0 0 baseMm :: ms)

/-- Python `mode or "raised"`: None and the empty string are falsy. -/
def pyOr (mode : Option String) (dflt : String) : String :=
  match mode with
  | none => dflt
  | some s => if s == "" then dflt else s

/-- The normalized mode computed at convert.py line 356:
(mode or "raised").lower(). -/
def modeNorm (mode : Option String) : String := pyLower (pyOr mode "raised")

/-- Total area of the final region set, as the report computes it. -/
def sumAreas (ps : List RPoly) : ℚ := (ps.map polyArea).sum

/-- The DimensionReport of convert.py (the file path is not part of the
geometry model). -/
structure DReportQ where
  sizeMm : ℚ
  baseMm : ℚ
  reliefMm : ℚ
  mode : String
  bboxMm : ℚ × ℚ × ℚ × ℚ
  approxAreaMm2 : ℚ
  warnings : List String
deriving DecidableEq

/-- Everything convert_svg_to_stl computes before the mode handling at line
356: the base slab, the concatenated relief volume, the final footprint area
and the warnings gathered so far. -/
structure PreOut (Mt : Type) where
  base : Mt
  relief : Mt
  area : ℚ
  warnings : List String

/-- The per-shape conversion of convert_svg_to_stl lines 317-326: a
LineString is buffered by max(min_line/2, 0.01) with flat caps and mitred
joins, a Polygon passes through, anything else is zero-buffered inside
try/except (modeled by the total kernel operation). -/
def convShapes (K : Kernel) (raws : List SGeom) (minLineMm : ℚ) : List SGeom :=
  raws.map fun g =>
    match g with
    | .lineS _ => K.buffer g (max (minLineMm / 2) (1 / 100)) capFlat joinMitre
    | .poly _ => g
    | _ => K.buffer0 g

/-- Lines 313-354 of convert_svg_to_stl: extraction result, shape conversion
via convShapes, union, clean, normalize to size, minimum-width buffer, clean
again, base slab construction, the relief loop, the no-mesh check and the
relief concatenation. -/
def convertPre (K : Kernel) (extractRes : Except String (List SGeom))
    (sizeMm baseMm reliefMm minLineMm : ℚ) : Except String (PreOut K.M) := do
  let raws ← extractRes
  let g0 := K.uUnion (convShapes K raws minLineMm)
  let (ps1, w1) ← cleanGeometry K.mkValid K.uUnion g0 []
  let (ps2, w2) ← normalizeToSize ps1 sizeMm w1
  let (g3, w3) ← bufferToMinLine K (SGeom.mpoly ps2) minLineMm w2
  let (ps4, w4) ← cleanGeometry K.mkValid K.uUnion g3 w3
  let base := K.translateM (K.box sizeMm sizeMm baseMm) 0 0 (baseMm / 2)
  let ms ← reliefLoop K ps4 reliefMm baseMm
  if ms.isEmpty then .error emptyResultMsg
  else .ok ⟨base, K.concatM ms, sumAreas ps4, w4⟩

/-- The raised/engraved combination step of convert_svg_to_stl lines
360-372: raised mode boolean-unions base and relief when OpenSCAD exists and
otherwise concatenates them with a warning; engraved mode sinks a copy of the
relief by relief_mm and boolean-subtracts it from the base when OpenSCAD
exists, otherwise returns the bare base with a warning. -/
def modeCombine (K : Kernel) (pre : PreOut K.M) (reliefMm : ℚ) (modeN : String) :
    K.M × List String :=
  if modeN == "raised" then
    if K.scadExists then (K.boolUnion [pre.base, pre.relief], pre.warnings)
    else (K.concatM [pre.base, pre.relief], pre.warnings ++ [scadRaisedWarnMsg])
  else
    if K.scadExists then
      (K.boolDiff [pre.base, K.translateM pre.relief 0 0 (-reliefMm)], pre.warnings)
    else (pre.base, pre.warnings ++ [scadEngravedWarnMsg])

/-- Lines 356-393 of convert_svg_to_stl: normalize the mode, reject an
unknown one, combine base and relief via modeCombine, reject an empty mesh,
clean it with process(validate=True) and build the report from the mesh
bounds. -/
def convertPost (K : Kernel) (pre : PreOut K.M)
    (sizeMm baseMm reliefMm : ℚ) (mode : Option String) :
    Except String (K.M × DReportQ) :=
  if modeNorm mode == "raised" || modeNorm mode == "engraved" then
    if K.isEmptyM (modeCombine K pre reliefMm (modeNorm mode)).1 then
      .error meshEmptyMsg
    else
      .ok (K.processM (modeCombine K pre reliefMm (modeNorm mode)).1,
        ⟨sizeMm, baseMm, reliefMm, modeNorm mode,
         ((K.boundsM (K.processM (modeCombine K pre reliefMm (modeNorm mode)).1)).1.1,
          (K.boundsM (K.processM (modeCombine K pre reliefMm (modeNorm mode)).1)).1.2.1,
          (K.boundsM (K.processM (modeCombine K pre reliefMm (modeNorm mode)).1)).2.1,
          (K.boundsM (K.processM (modeCombine K pre reliefMm (modeNorm mode)).1)).2.2.1),
         pre.area,
         (modeCombine K pre reliefMm (modeNorm mode)).2⟩)
  else .error modeMsg

/-- convert_svg_to_stl (convert.py lines 301-393): the pre-mode pipeline
followed by the mode stage. -/
def convertSvgToStl (K : Kernel) (extractRes : Except String (List SGeom))
    (sizeMm : ℚ) (mode : Option String) (baseMm reliefMm minLineMm : ℚ) :
    Except String (K.M × DReportQ) :=
  (convertPre K extractRes sizeMm baseMm reliefMm minLineMm).bind fun pre =>
    convertPost K pre sizeMm baseMm reliefMm mode

/-! The parameter validation of the request handler backend/main.py
(lines 38-57). -/

/-- The numeric/mode acceptance of backend/main.py for /api/generate: the
declared FastAPI Query bounds (base_mm in [2, 20], relief_mm in [0.6, 6],
min_line_mm in [0.4, 4]; the framework rejects violations with a 422 before
the handler body runs) together with the explicit handler checks
size_mm in ALLOWED_SIZES and mode in ALLOWED_MODES. -/
def backendAccepts (sizeMm : ℚ) (mode : String) (baseMm reliefMm minLineMm : ℚ) : Bool :=
  decide (2 ≤ baseMm) && decide (baseMm ≤ 20) &&
  decide ((3 : ℚ) / 5 ≤ reliefMm) && decide (reliefMm ≤ 6) &&
  decide ((2 : ℚ) / 5 ≤ minLineMm) && decide (minLineMm ≤ 4) &&
  (sizeMm == 25 || sizeMm == 30 || sizeMm == 40) &&
  (mode == "raised" || mode == "engraved")

/-! Concrete kernel instances.  The control-flow theorems below hold for
every Kernel; the instances give executable witnesses and counterexamples. -/

/-- A trivial kernel: geometry operations are the identity (sound for the
already-valid, disjoint inputs the witnesses feed it), meshes carry no data,
extrusion always succeeds and OpenSCAD is available. -/
def Ktriv : Kernel where
  mkValid := id
  uUnion := fun gs => gs.headD (SGeom.mpoly [])
  buffer := fun g _ _ _ => g
  buffer0 := id
  M := Unit
  box := fun _ _ _ => ()
  translateM := fun m _ _ _ => m
  extrude := fun _ _ => .ok ()
  concatM := fun _ => ()
  boolUnion := fun _ => ()
  boolDiff := fun _ => ()
  scadExists := true
  isEmptyM := fun _ => false
  processM := id
  boundsM := fun _ => ((0, 0, 0), (0, 0, 0))

/-- Ktriv with an extrusion that raises an internal geometry error. -/
def KFail : Kernel := { Ktriv with extrude := fun _ _ => .error "boom" }

/-! A kernel whose union absorbs components contained in other components,
implemented exactly for axis-aligned rectangle polygons.  This mirrors the
documented behaviour of shapely unary_union / make_valid on a MultiPolygon
with one component lying inside another: the union merges them. -/

/-- Recognize an axis-aligned rectangle ring listed counterclockwise from the
bottom-left corner, returning (x0, y0, x1, y1). -/
def rectOf : List Pt → Option (ℚ × ℚ × ℚ × ℚ)
  | [(x0, y0), (x1, y1), (x2, y2), (x3, y3)] =>
    if y1 == y0 && x2 == x1 && y3 == y2 && x3 == x0 &&
        decide (x0 < x1) && decide (y0 < y2) then
      some (x0, y0, x1, y2)
    else none
  | _ => none

/-- Rectangle containment r ⊆ s. -/
def rectSub (r s : ℚ × ℚ × ℚ × ℚ) : Bool :=
  decide (s.1 ≤ r.1) && decide (r.2.2.1 ≤ s.2.2.1) &&
  decide (s.2.1 ≤ r.2.1) && decide (r.2.2.2 ≤ s.2.2.2)

/-- The interiors of two rectangles are disjoint. -/
def rectInteriorDisjoint (r h : ℚ × ℚ × ℚ × ℚ) : Bool :=
  decide (r.2.2.1 ≤ h.1) || decide (h.2.2.1 ≤ r.1) ||
  decide (r.2.2.2 ≤ h.2.1) || decide (h.2.2.2 ≤ r.2.1)

/-- Polygon p lies inside the filled region of polygon q: its rectangle is
contained in the exterior rectangle of q and misses the interior of every
hole of q.  Only rectangle rings are recognized. -/
def coveredBy (p q : RPoly) : Bool :=
  match rectOf p.ext, rectOf q.ext with
  | some rp, some rq =>
    rectSub rp rq && q.holes.all fun h =>
      match rectOf h with
      | some rh => rectInteriorDisjoint rp rh
      | none => false
  | _, _ => false

/-- Drop every polygon covered by a different polygon of the list (the union
of a contained component with its container is the container). -/
def absorbList (ps : List RPoly) : List RPoly :=
  ps.filter fun p => !(ps.any fun q => !(decide (q = p)) && coveredBy p q)

/-- Collect the polygon members of a geometry list. -/
def flattenPolys : List SGeom → List RPoly
  | [] => []
  | .poly p :: rest => p :: flattenPolys rest
  | .mpoly ps :: rest => ps ++ flattenPolys rest
  | .gcol gs :: rest => flattenPolys gs ++ flattenPolys rest
  | .lineS _ :: rest => flattenPolys rest

/-- Wrap a polygon list the way shapely union results come back: a single
polygon is a Polygon, anything else a MultiPolygon. -/
def mkGeomOf : List RPoly → SGeom
  | [p] => SGeom.poly p
  | ps => SGeom.mpoly ps

/-- unary_union for the absorbing rectangle kernel. -/
def uuAbs (gs : List SGeom) : SGeom := mkGeomOf (absorbList (flattenPolys gs))

/-- make_valid for the absorbing rectangle kernel: repairing an overlapping
multipolygon merges the contained component into its container. -/
def mvAbs (g : SGeom) : SGeom := uuAbs [g]

/-! A kernel with point-set semantics for meshes (subsets of ℚ³), exact for
the axis-aligned boxes the counterexamples build: trimesh box/extrusion/
translation/boolean operations act on the solid regions themselves. -/

/-- Meshes as solid point sets in ℚ³. -/
abbrev MeshS : Type := Set (ℚ × ℚ × ℚ)

/-- The filled axis-aligned prism over [x0,x1] × [y0,y1] with height h. -/
def rectPrism (x0 y0 x1 y1 h : ℚ) : MeshS :=
  {q | x0 ≤ q.1 ∧ q.1 ≤ x1 ∧ y0 ≤ q.2.1 ∧ q.2.1 ≤ y1 ∧ 0 ≤ q.2.2 ∧ q.2.2 ≤ h}

/-- Union of a list of point-set meshes. -/
def meshUnion (ms : List MeshS) : MeshS := ms.foldl (fun a b => a ∪ b) ∅

/-- trimesh extrude_polygon for the set kernel, exact for rectangle rings:
the prism over the exterior rectangle minus the open prisms over the hole
rectangles.  A non-rectangle ring is reported as an internal error. -/
def extrudeSet (p : RPoly) (h : ℚ) : Except String MeshS :=
  match rectOf p.ext with
  | none => .error "unsupported ring"
  | some (x0, y0, x1, y1) =>
    .ok ((rectPrism x0 y0 x1 y1 h) \
      meshUnion (p.holes.filterMap rectOf |>.map fun r =>
        {q | r.1 < q.1 ∧ q.1 < r.2.2.1 ∧ r.2.1 < q.2.1 ∧ q.2.1 < r.2.2.2}))

/-- The point-set mesh kernel.  mkValid/uUnion/buffer act as the identity
(the counterexample geometry is valid and disjoint throughout, and buffer is
only applied with zero distance there); is_empty reports nonempty, matching
the solids the counterexample constructs; process(validate=True) is the
identity cleanup; mesh bounds are not consumed by any theorem and are stubbed
at the origin. -/
def KSet : Kernel where
  mkValid := id
  uUnion := fun gs => gs.headD (SGeom.mpoly [])
  buffer := fun g _ _ _ => g
  buffer0 := id
  M := MeshS
  box := fun sx sy sz =>
    {q | -(sx / 2) ≤ q.1 ∧ q.1 ≤ sx / 2 ∧ -(sy / 2) ≤ q.2.1 ∧ q.2.1 ≤ sy / 2 ∧
         -(sz / 2) ≤ q.2.2 ∧ q.2.2 ≤ sz / 2}
  translateM := fun m a b c => {q | (q.1 - a, q.2.1 - b, q.2.2 - c) ∈ m}
  extrude := extrudeSet
  concatM := meshUnion
  boolUnion := meshUnion
  boolDiff := fun ms =>
    match ms with
    | [] => ∅
    | a :: rest => a \ meshUnion rest
  scadExists := true
  isEmptyM := fun _ => false
  processM := id
  boundsM := fun _ => ((0, 0, 0), (0, 0, 0))

/-- Identity view of a KSet mesh as a point set (the two types are
definitionally equal; this view lets membership statements elaborate). -/
def toMesh (x : KSet.M) : MeshS := x

/-- KSet with the OpenSCAD boolean engine absent. -/
def KSetNoScad : Kernel := { KSet with scadExists := false }

/-! Concrete inputs used by witnesses and counterexamples. -/

/-- An axis-aligned square ring. -/
def sqRing (x0 y0 x1 y1 : ℚ) : List Pt := [(x0, y0), (x1, y0), (x1, y1), (x0, y1)]

/-- The filled 10 by 10 square polygon, as extracted from a rect element. -/
def sq10 : RPoly := ⟨sqRing 0 0 10 10, []⟩

/-- Atom stream of the d-string "M 0 0 L 10 0 C 1 2 3 4 5 6 Z": a supported
move and line, then a cubic curve command, then close. -/
def c1atoms : List PathTok :=
  [.pcmd 'M', .pnum 0, .pnum 0, .pcmd 'L', .pnum 10, .pnum 0,
   .pcmd 'C', .pnum 1, .pnum 2, .pnum 3, .pnum 4, .pnum 5, .pnum 6, .pcmd 'Z']

/-- The tail of _buffer_to_min_line shared by all isinstance branches: union
the singleton buffered list, clean with a zero buffer, raise on empty,
append the large-width warning exactly when half exceeds 1. -/
def bufResult (K : Kernel) (b : SGeom) (minLine : ℚ) (w : List String) :
    Except String (SGeom × List String) :=
  if isEmptySG (K.buffer0 (K.uUnion [b])) then .error emptyAfterProcessMsg
  else .ok (K.buffer0 (K.uUnion [b]),
    if 1 < max (minLine / 2) (1 / 100) then w ++ [minLineWarnMsg] else w)

/-- The per-kind buffered geometry chosen by the isinstance dispatch of
_buffer_to_min_line: a LineString gets the real outward buffer, everything
else the zero-distance repair buffer. -/
def bufBranch (K : Kernel) (g : SGeom) (minLine : ℚ) : SGeom :=
  match g with
  | .lineS _ => K.buffer g (max (minLine / 2) (1 / 100)) capFlat joinMitre
  | _ => K.buffer0 g

/-- Translate a bounds quadruple. -/
def shift4 (t1 t2 : ℚ) (v : ℚ × ℚ × ℚ × ℚ) : ℚ × ℚ × ℚ × ℚ :=
  (v.1 + t1, v.2.1 + t2, v.2.2.1 + t1, v.2.2.2 + t2)

/-- Scale a bounds quadruple. -/
def scale4 (s : ℚ) (v : ℚ × ℚ × ℚ × ℚ) : ℚ × ℚ × ℚ × ℚ :=
  (s * v.1, s * v.2.1, s * v.2.2.1, s * v.2.2.2)

/-- A drawing whose only href is an embedded non-raster, non-SVG data URI,
next to a perfectly valid rect shape. -/
def c3root : XElem :=
  .node "svg" []
    [.node "defs" [("href", "data:text/plain,hi")] [],
     .node "rect" [("width", "10"), ("height", "10")] []]

/-- A square with one sub-threshold hole (0.3 by 0.3) and one large hole. -/
def c4poly : RPoly :=
  ⟨sqRing 0 0 10 10, [sqRing 4 4 (43 / 10) (43 / 10), sqRing 5 5 7 7]⟩

/-- Region A of the idempotence counterexample: the 10 by 10 square with a
0.3 by 0.3 hole (area 0.09, below the 0.1225 threshold). -/
def c6A : RPoly := ⟨sqRing 0 0 10 10, [sqRing 4 4 (43 / 10) (43 / 10)]⟩

/-- Region B: a 0.1 by 0.1 island inside the hole of A. -/
def c6B : RPoly := ⟨sqRing (41 / 10) (41 / 10) (42 / 10) (42 / 10), []⟩

/-- A with its hole filled, as hole removal produces it. -/
def c6Afill : RPoly := ⟨sqRing 0 0 10 10, []⟩

/-- The valid two-region input of the idempotence counterexample. -/
def c6X : SGeom := SGeom.mpoly [c6A, c6B]

/-- A self-crossing bowtie quadrilateral: positive bounding box, zero
shoelace area. -/
def bowtie : RPoly := ⟨[(0, 0), (1, 0), (0, 1), (1, 1)], []⟩

/-- The base slab built by the pipeline at size 30, base height 7. -/
def c8base : MeshS := KSet.translateM (KSet.box 30 30 7) 0 0 (7 / 2)

/-- The extruded relief prism of the full-coverage square at relief 11/5. -/
def c8prism : MeshS := rectPrism (-15) (-15) 15 15 (11 / 5) \ meshUnion []

/-- The concatenated relief volume sitting on the slab top. -/
def c8reliefM : MeshS := KSet.concatM [KSet.translateM c8prism 0 0 7]

/-- The engraving cutter: the relief lifted onto the slab top and then sunk
by its own height. -/
def c8cutter : MeshS := KSet.translateM c8reliefM 0 0 (-(11 / 5))

/-- The pre-mode pipeline output of the full-coverage engraved run (shared by
KSet and KSetNoScad, whose geometry operations agree). -/
def c8pre : PreOut MeshS := ⟨c8base, c8reliefM, 900, []⟩

/-- The engraved output solid of the full-coverage run: slab minus cutter. -/
def c8m : MeshS := KSet.boolDiff [c8base, c8cutter]

/-- The report of the engraved full-coverage run. -/
def c8rep : DReportQ := ⟨30, 7, 11 / 5, "engraved", (0, 0, 0, 0), 900, []⟩

/-- The report of the same run without the boolean engine: the only change is
the fallback warning. -/
def c8repNS : DReportQ :=
  ⟨30, 7, 11 / 5, "engraved", (0, 0, 0, 0), 900, [scadEngravedWarnMsg]⟩

/-- The report of the out-of-bounds direct invocation of C2: size 100,
base 1, relief 10, min line 8 are all accepted and show up unchanged. -/
def c2rep : DReportQ :=
  ⟨100, 1, 10, "raised", (0, 0, 0, 0), 10000, [minLineWarnMsg]⟩

/-- C1: the claim says a path containing a curve command (C here) fails with
UnsupportedPathCommand.  The code instead silently drops the C token in its
tokenizer regex, consumes the six curve operands as implicit line-to
coordinates, and returns a closed 6-point sequence; the unsupported-command
raise in the interpreter is unreachable.  This theorem evaluates the embedded
interpreter at the failing input "M 0 0 L 10 0 C 1 2 3 4 5 6 Z". -/
theorem c1_curve_command_not_rejected :
    pathToLinestring c1atoms =
      .ok (some [(0, 0), (10, 0), (1, 2), (3, 4), (5, 6), (0, 0)]) := by
  decide

/-! Shared computation lemmas. -/

/-- The engraved full-coverage run on the set kernel evaluates to the slab
minus the sunk cutter. -/
theorem c8eq_run :
    convertSvgToStl KSet (.ok [SGeom.poly sq10]) 30 (some "engraved") 7 (11 / 5) (7 / 5) =
      .ok (c8m, c8rep) := by
  with_unfolding_all rfl

/-- C4: in the hole-removal step at the fixed threshold 0.35*0.35, the
exterior ring is unchanged, every hole ring dropped from the polygon has ring
area strictly below the threshold, and every kept hole ring has ring area at
least the threshold. -/
theorem c4_hole_filter (p : RPoly) (w : List String) (r : List Pt) :
    (removeSmallHoles p holeThresh w).1.ext = p.ext ∧
    (r ∈ p.holes → r ∉ (removeSmallHoles p holeThresh w).1.holes →
      ringArea r < holeThresh) ∧
    (r ∈ (removeSmallHoles p holeThresh w).1.holes → holeThresh ≤ ringArea r) := by
  unfold removeSmallHoles
  by_cases h : p.holes.isEmpty
  · rw [if_pos h]
    rw [List.isEmpty_iff] at h
    refine ⟨rfl, ?_, ?_⟩
    · intro hr hnr
      exact absurd hr (by simp [h])
    · intro hr
      exact absurd hr (by simp [h])
  · rw [if_neg h]
    refine ⟨rfl, ?_, ?_⟩
    · intro hr hnr
      by_contra hlt
      exact hnr (List.mem_filter.mpr ⟨hr, decide_eq_true (not_lt.mp hlt)⟩)
    · intro hr
      exact of_decide_eq_true (List.mem_filter.mp hr).2

/-- C4 witness: on a square with a 0.09-area hole and a 4-area hole, the
small hole is dropped (its area is below the threshold), the large one is
kept (its area is at least the threshold), and the exterior is unchanged. -/
theorem c4_hole_filter_witness :
    ringArea (sqRing 4 4 (43 / 10) (43 / 10)) < holeThresh ∧
    holeThresh ≤ ringArea (sqRing 5 5 7 7) ∧
    (removeSmallHoles c4poly holeThresh []).1.ext = c4poly.ext :=
  ⟨(c4_hole_filter c4poly [] (sqRing 4 4 (43 / 10) (43 / 10))).2.1
      (by with_unfolding_all decide) (by with_unfolding_all decide),
   (c4_hole_filter c4poly [] (sqRing 5 5 7 7)).2.2 (by with_unfolding_all decide),
   (c4_hole_filter c4poly [] []).1⟩

/-- C7: the minimum-width enforcer buffers a LineString by exactly
max(min_line/2, 0.01) with flat caps (cap_style 2) and mitred joins
(join_style 2); it re-buffers a Polygon or MultiPolygon by zero distance;
the floor 0.01 is positive; and a successful result is nonempty with the
large-width warning appended exactly when the half-width exceeds 1 (an empty
result raises the EmptyGeometry error instead, per bufResult). -/
theorem c7_min_width_enforcer (K : Kernel) (ml : ℚ) (w : List String) :
    (0 : ℚ) < 1 / 100 ∧
    (∀ pts, bufferToMinLine K (SGeom.lineS pts) ml w =
      bufResult K (K.buffer (SGeom.lineS pts) (max (ml / 2) (1 / 100)) capFlat joinMitre) ml w) ∧
    (∀ p, bufferToMinLine K (SGeom.poly p) ml w =
      bufResult K (K.buffer0 (SGeom.poly p)) ml w) ∧
    (∀ ps, bufferToMinLine K (SGeom.mpoly ps) ml w =
      bufResult K (K.buffer0 (SGeom.mpoly ps)) ml w) ∧
    (∀ g u2 w2, bufferToMinLine K g ml w = .ok (u2, w2) →
      isEmptySG u2 = false ∧ (w2 = w ++ [minLineWarnMsg] ↔ 1 < max (ml / 2) (1 / 100))) := by
  refine ⟨by norm_num, fun _ => rfl, fun _ => rfl, fun _ => rfl, ?_⟩
  intro g u2 w2 h
  have hb : bufferToMinLine K g ml w = bufResult K (bufBranch K g ml) ml w := by
    cases g <;> rfl
  rw [hb] at h
  unfold bufResult at h
  split at h
  · exact absurd h (by simp)
  · rename_i hemp
    simp only [Bool.not_eq_true] at hemp
    split at h
    · rename_i hc
      rw [Except.ok.injEq, Prod.mk.injEq] at h
      obtain ⟨hu, hw⟩ := h
      exact ⟨hu ▸ hemp, by rw [← hw]; exact iff_of_true rfl hc⟩
    · rename_i hc
      rw [Except.ok.injEq, Prod.mk.injEq] at h
      obtain ⟨hu, hw⟩ := h
      exact ⟨hu ▸ hemp, by rw [← hw]; exact iff_of_false (by simp) hc⟩

/-- C7 witness: the enforcer run on the square polygon at min_line 1 succeeds
with no warning (half-width 1/2 does not exceed 1) and a nonempty result;
the branch equation is instantiated on a concrete open line. -/
theorem c7_min_width_enforcer_witness :
    (bufferToMinLine Ktriv (SGeom.lineS [(0, 0), (4, 0)]) 1 [] =
      bufResult Ktriv (Ktriv.buffer (SGeom.lineS [(0, 0), (4, 0)])
        (max ((1 : ℚ) / 2) (1 / 100)) capFlat joinMitre) 1 []) ∧
    isEmptySG (SGeom.poly sq10) = false ∧
    (([] : List String) = [] ++ [minLineWarnMsg] ↔ 1 < max ((1 : ℚ) / 2) (1 / 100)) :=
  ⟨(c7_min_width_enforcer Ktriv 1 []).2.1 [(0, 0), (4, 0)],
   ((c7_min_width_enforcer Ktriv 1 []).2.2.2.2 (SGeom.poly sq10) (SGeom.poly sq10) []
      (by with_unfolding_all rfl)).1,
   ((c7_min_width_enforcer Ktriv 1 []).2.2.2.2 (SGeom.poly sq10) (SGeom.poly sq10) []
      (by with_unfolding_all rfl)).2⟩

/-- C2 counterexample: invoked directly with size 100 (not one of 25/30/40),
base 1 (below 2), relief 10 (above 6) and min line 8 (above 4),
convert_svg_to_stl does not reject anything: it returns a successful report
carrying the out-of-range values, while the backend handler would have
rejected them. -/
theorem c2_no_defensive_bounds_cx :
    ¬((100 : ℚ) = 25 ∨ (100 : ℚ) = 30 ∨ (100 : ℚ) = 40) ∧
    ¬((2 : ℚ) ≤ 1) ∧ ¬((10 : ℚ) ≤ 6) ∧ ¬((8 : ℚ) ≤ 4) ∧
    convertSvgToStl Ktriv (.ok [SGeom.poly sq10]) 100 (some "raised") 1 10 8 =
      .ok ((), c2rep) ∧
    backendAccepts 100 "raised" 1 10 8 = false :=
  ⟨by norm_num, by norm_num, by norm_num, by norm_num,
   by with_unfolding_all rfl, by with_unfolding_all rfl⟩

/-- backendAccepts spelled out as a conjunction of bounds. -/
theorem backendAccepts_true_iff (sizeMm : ℚ) (mode : String) (b r l : ℚ) :
    backendAccepts sizeMm mode b r l = true ↔
      ((2 ≤ b ∧ b ≤ 20) ∧ ((3 : ℚ) / 5 ≤ r ∧ r ≤ 6) ∧ ((2 : ℚ) / 5 ≤ l ∧ l ≤ 4) ∧
       (sizeMm = 25 ∨ sizeMm = 30 ∨ sizeMm = 40) ∧
       (mode = "raised" ∨ mode = "engraved")) := by
  simp [backendAccepts, and_assoc, or_assoc]

/-- C2 amended: convert_svg_to_stl performs no defensive bounds validation at
all: with every numeric parameter left free (and the out-of-range size 100),
the pipeline still succeeds on valid geometry; the enumerated-size and range
bounds are enforced only by the backend handler, which rejects every
out-of-range combination before invoking the core. -/
theorem c2_amended_no_core_validation :
    (∀ b r ml : ℚ, ∃ rep : DReportQ,
       convertSvgToStl Ktriv (.ok [SGeom.poly sq10]) 100 (some "raised") b r ml =
         .ok ((), rep)) ∧
    (∀ (sizeMm : ℚ) (mode : String) (b r l : ℚ),
       (¬(2 ≤ b ∧ b ≤ 20) ∨ ¬((3 : ℚ) / 5 ≤ r ∧ r ≤ 6) ∨ ¬((2 : ℚ) / 5 ≤ l ∧ l ≤ 4) ∨
        (sizeMm ≠ 25 ∧ sizeMm ≠ 30 ∧ sizeMm ≠ 40) ∨
        (mode ≠ "raised" ∧ mode ≠ "engraved")) →
       backendAccepts sizeMm mode b r l = false) := by
  constructor
  · intro b r ml
    exact ⟨_, by with_unfolding_all rfl⟩
  · intro sizeMm mode b r l h
    rw [← Bool.not_eq_true, backendAccepts_true_iff]
    rintro ⟨h1, h2, h3, h4, h5⟩
    rcases h with h | h | h | h | h
    · exact h h1
    · exact h h2
    · exact h h3
    · rcases h4 with e | e | e <;> [exact h.1 e; exact h.2.1 e; exact h.2.2 e]
    · rcases h5 with e | e <;> [exact h.1 e; exact h.2 e]

/-- C2 amended witness: the core accepts base 7, relief 11/5, min line 7/5 at
the out-of-range size 100, while the backend rejects that size. -/
theorem c2_amended_no_core_validation_witness :
    (∃ rep : DReportQ,
       convertSvgToStl Ktriv (.ok [SGeom.poly sq10]) 100 (some "raised") 7 (11 / 5) (7 / 5) =
         .ok ((), rep)) ∧
    backendAccepts 100 "raised" 7 (11 / 5) (7 / 5) = false :=
  ⟨c2_amended_no_core_validation.1 7 (11 / 5) (7 / 5),
   c2_amended_no_core_validation.2 100 "raised" 7 (11 / 5) (7 / 5)
     (Or.inr (Or.inr (Or.inr (Or.inl ⟨by norm_num, by norm_num, by norm_num⟩))))⟩

/-- C10: mode handling of convert_svg_to_stl.  A missing or empty mode is
substituted by raised; a nonempty mode string is lowercased, so matching is
case-insensitive; the conversion result depends on the mode only through its
normalization; an error of any pre-mode stage is returned as is, whatever the
mode argument; and when the pre-mode pipeline succeeds, the mode error is
raised exactly for a normalized mode that is neither raised nor engraved. -/
theorem c10_mode_validation (K : Kernel) (e : Except String (List SGeom))
    (s b r ml : ℚ) (mo : Option String) :
    modeNorm none = "raised" ∧ modeNorm (some "") = "raised" ∧
    (∀ str : String, str ≠ "" → modeNorm (some str) = pyLower str) ∧
    (∀ mo2, modeNorm mo = modeNorm mo2 →
      convertSvgToStl K e s mo b r ml = convertSvgToStl K e s mo2 b r ml) ∧
    (∀ msg, convertPre K e s b r ml = .error msg →
      convertSvgToStl K e s mo b r ml = .error msg) ∧
    (∀ pre, convertPre K e s b r ml = .ok pre →
      (convertSvgToStl K e s mo b r ml = .error modeMsg ↔
        (modeNorm mo ≠ "raised" ∧ modeNorm mo ≠ "engraved"))) := by
  refine ⟨by decide, by decide, ?_, ?_, ?_, ?_⟩
  · intro str hs
    have : (str == "") = false := by
      simpa [beq_iff_eq] using hs
    simp [modeNorm, pyOr, this]
  · intro mo2 hm
    simp only [convertSvgToStl, convertPost, hm]
  · intro msg h
    unfold convertSvgToStl
    rw [h]
    rfl
  · intro pre h
    unfold convertSvgToStl
    rw [h]
    show convertPost K pre s b r mo = .error modeMsg ↔ _
    unfold convertPost
    have hne : meshEmptyMsg ≠ modeMsg := by decide
    split
    · rename_i hv
      rw [Bool.or_eq_true, beq_iff_eq, beq_iff_eq] at hv
      constructor
      · intro habs
        split at habs
        · exact absurd (Except.error.inj habs) hne
        · exact absurd habs (by simp)
      · rintro ⟨h1, h2⟩
        rcases hv with hv | hv
        · exact absurd hv h1
        · exact absurd hv h2
    · rename_i hv
      rw [Bool.or_eq_true, not_or, beq_iff_eq, beq_iff_eq] at hv
      push_neg at hv
      exact iff_of_true rfl hv

/-- C10 witness: a pre-mode extraction error surfaces unchanged even with a
garbage mode, and on a successful pre-mode pipeline the garbage mode is
rejected with the mode ConvertError. -/
theorem c10_mode_validation_witness :
    convertSvgToStl Ktriv (.error "bad svg") 30 (some "BaNaNa") 7 (11 / 5) (7 / 5) =
      .error "bad svg" ∧
    convertSvgToStl Ktriv (.ok [SGeom.poly sq10]) 30 (some "banana") 7 (11 / 5) (7 / 5) =
      .error modeMsg :=
  ⟨(c10_mode_validation Ktriv (.error "bad svg") 30 7 (11 / 5) (7 / 5)
      (some "BaNaNa")).2.2.2.2.1 "bad svg" rfl,
   ((c10_mode_validation Ktriv (.ok [SGeom.poly sq10]) 30 7 (11 / 5) (7 / 5)
      (some "banana")).2.2.2.2.2 ⟨(), (), 900, []⟩
      (by with_unfolding_all rfl)).mpr ⟨by decide, by decide⟩⟩

/-- bind on a successful Except (monadic form). -/
theorem mbind_ok {e a b : Type} (x : a) (f : a → Except e b) :
    (Except.ok x >>= f) = f x := rfl

/-- bind on a failed Except (monadic form). -/
theorem mbind_err {e a b : Type} (er : e) (f : a → Except e b) :
    ((Except.error er : Except e a) >>= f) = .error er := rfl

/-- Except.bind on a success. -/
theorem ebind_ok {e a b : Type} (x : a) (f : a → Except e b) :
    (Except.ok x : Except e a).bind f = f x := rfl

/-- Except.bind on a failure. -/
theorem ebind_err {e a b : Type} (er : e) (f : a → Except e b) :
    (Except.error er : Except e a).bind f = .error er := rfl

/-- C9: the mesh-building loop silently skips an empty or nonpositive-area
region; a raising extrusion of a non-skipped region aborts the loop with the
could-not-extrude ConvertError (MeshBuildFailure); and within the full
pipeline, when all stages succeed but the loop produces no mesh at all, the
conversion fails with the EmptyResult error, while a loop error surfaces as
the conversion error. -/
theorem c9_mesh_loop (K : Kernel) (p : RPoly) (rest : List RPoly) (r b : ℚ) :
    ((isEmptyP p = true ∨ polyArea p ≤ 0) →
      reliefLoop K (p :: rest) r b = reliefLoop K rest r b) ∧
    (∀ e, ¬(isEmptyP p = true ∨ polyArea p ≤ 0) → K.extrude p r = .error e →
      reliefLoop K (p :: rest) r b = .error (extrudeFailMsg e)) ∧
    (∀ (raws : List SGeom) (s ml : ℚ) (ps1 ps2 ps4 : List RPoly)
       (w1 w2 w3 w4 : List String) (g3 : SGeom) (mo : Option String),
      cleanGeometry K.mkValid K.uUnion (K.uUnion (convShapes K raws ml)) [] = .ok (ps1, w1) →
      normalizeToSize ps1 s w1 = .ok (ps2, w2) →
      bufferToMinLine K (SGeom.mpoly ps2) ml w2 = .ok (g3, w3) →
      cleanGeometry K.mkValid K.uUnion g3 w3 = .ok (ps4, w4) →
      ((reliefLoop K ps4 r b = .ok [] →
         convertSvgToStl K (.ok raws) s mo b r ml = .error emptyResultMsg) ∧
       (∀ msg, reliefLoop K ps4 r b = .error msg →
         convertSvgToStl K (.ok raws) s mo b r ml = .error msg))) := by
  refine ⟨?_, ?_, ?_⟩
  · intro h
    unfold reliefLoop
    rw [if_pos h]
    cases rest <;> rfl
  · intro e hskip herr
    unfold reliefLoop
    rw [if_neg hskip, herr]
  · intro raws s ml ps1 ps2 ps4 w1 w2 w3 w4 g3 mo h1 h2 h3 h4
    constructor
    · intro h5
      simp only [convertSvgToStl, convertPre, mbind_ok, mbind_err, ebind_ok, ebind_err,
        h1, h2, h3, h4, h5, List.isEmpty_nil, if_true]
    · intro msg h5
      simp only [convertSvgToStl, convertPre, mbind_ok, mbind_err, ebind_ok, ebind_err,
        h1, h2, h3, h4, h5]

/-- C9 witness: the zero-area bowtie region is skipped without error; a
raising extrusion yields the could-not-extrude ConvertError; and the full
pipeline on the bowtie drawing (every region skipped) fails with the
EmptyResult error. -/
theorem c9_mesh_loop_witness :
    reliefLoop Ktriv [bowtie] (11 / 5) 7 = reliefLoop Ktriv [] (11 / 5) 7 ∧
    reliefLoop KFail [sq10] (11 / 5) 7 = .error (extrudeFailMsg "boom") ∧
    convertSvgToStl Ktriv (.ok [SGeom.poly bowtie]) 30 (some "raised") 7 (11 / 5) (7 / 5) =
      .error emptyResultMsg :=
  ⟨(c9_mesh_loop Ktriv bowtie [] (11 / 5) 7).1 (Or.inr (by with_unfolding_all decide)),
   (c9_mesh_loop KFail sq10 [] (11 / 5) 7).2.1 "boom" (by with_unfolding_all decide) rfl,
   ((c9_mesh_loop Ktriv bowtie [] (11 / 5) 7).2.2 [SGeom.poly bowtie] 30 (7 / 5)
      [bowtie] [⟨[(-15, -15), (15, -15), (-15, 15), (15, 15)], []⟩]
      [⟨[(-15, -15), (15, -15), (-15, 15), (15, 15)], []⟩]
      [] [] [] [] (SGeom.mpoly [⟨[(-15, -15), (15, -15), (-15, 15), (15, 15)], []⟩])
      (some "raised")
      (by with_unfolding_all rfl) (by with_unfolding_all rfl)
      (by with_unfolding_all rfl) (by with_unfolding_all rfl)).1
      (by with_unfolding_all rfl)⟩

/-- Truth of the attribute-dispatch match used in elemRaster. -/
theorem optCase_true (o : Option String) (f : String → Bool) :
    (match o with
     | none => false
     | some v => f v) = true ↔ ∃ v, o = some v ∧ f v = true := by
  cases o <;> simp

/-- C3 amended: the extractor fails with the UnsupportedContent error exactly
when the document has an image element, or an href that is a data URI not
containing the image/svg+xml marker (raster or not), or an href matching the
raster-extension pattern; the check runs before shape collection, so other
valid shapes are irrelevant.  Embedded SVG data URIs escape the data-URI
check but can still trip the extension pattern. -/
theorem c3_raster_rejection_amended (root : XElem) :
    (hasRasterImages root = true ↔
      ∃ el ∈ iterE root, pyLower el.tag = "image" ∨
        ∃ k ∈ hrefKeys, ∃ v, getAttr el k = some v ∧
          ((strStarts v "data:" = true ∧ strHas v "image/svg+xml" = false) ∨
           rasterExtSearch v = true)) ∧
    (∀ shapeOf, extractGeometry shapeOf root = .error rasterMsg ↔
      hasRasterImages root = true) := by
  constructor
  · simp only [hasRasterImages, List.any_eq_true, elemRaster, Bool.or_eq_true,
      beq_iff_eq, optCase_true, Bool.and_eq_true, Bool.not_eq_true']
  · intro shapeOf
    unfold extractGeometry
    cases h : hasRasterImages root with
    | true => simp
    | false =>
      rw [if_neg (by simp [h])]
      constructor
      · intro hh
        split at hh
        · exact absurd (Except.error.inj hh).symm (by decide)
        · exact absurd hh (by simp)
      · intro hh
        exact absurd hh (by simp)

/-- C3 counterexample: a drawing whose only href is the embedded data URI
data:text/plain,hi fails with the UnsupportedContent error although it
contains no image element, no raster extension and no raster MIME marker in
the claim's sense (specRasterHref), so the failure is not exactly on raster
references. -/
theorem c3_raster_rejection_cx :
    hasRasterImages c3root = true ∧
    ((iterE c3root).all fun el => !(pyLower el.tag == "image")) = true ∧
    ((iterE c3root).all fun el => hrefKeys.all fun k =>
        match getAttr el k with
        | none => true
        | some v => !(specRasterHref v)) = true ∧
    extractGeometry (fun _ => none) c3root = .error rasterMsg :=
  ⟨by decide, by decide, by decide, rfl⟩

/-- Hole removal leaves a polygon unchanged when all of its holes reach the
threshold, and appends no warning. -/
theorem cleanStep_keep (p : RPoly) (acc : List RPoly) (w : List String)
    (h : ∀ r ∈ p.holes, holeThresh ≤ ringArea r) :
    cleanStep (acc, w) p = (acc ++ [p], w) := by
  have hrm : removeSmallHoles p holeThresh w = (p, w) := by
    unfold removeSmallHoles
    by_cases he : p.holes.isEmpty
    · rw [if_pos he]
    · rw [if_neg he]
      have hfil : p.holes.filter (fun r => decide (holeThresh ≤ ringArea r)) = p.holes :=
        List.filter_eq_self.mpr fun r hr => decide_eq_true (h r hr)
      simp [hfil]
  unfold cleanStep
  rw [hrm]

/-- The hole-removal fold leaves the polygon list unchanged when every hole
of every polygon reaches the threshold. -/
theorem cleanFold_keep (ps : List RPoly) (acc : List RPoly) (w : List String)
    (h : ∀ p ∈ ps, ∀ r ∈ p.holes, holeThresh ≤ ringArea r) :
    ps.foldl cleanStep (acc, w) = (acc ++ ps, w) := by
  induction ps generalizing acc with
  | nil => simp
  | cons p rest ih =>
    rw [List.foldl_cons, cleanStep_keep p acc w (h p (by simp)),
      ih (acc ++ [p]) fun q hq => h q (by simp [hq])]
    simp

/-- C6 amended: the union-and-repair step is idempotent on region sets that
make_valid and unary_union leave fixed (no overlaps to merge - which holds
exactly when hole removal did not put one region inside another region's
filled hole) and whose remaining holes all reach the threshold, as the holes
of any _clean_geometry output do: re-running _clean_geometry returns the
region set unchanged with no further warnings.  It is not idempotent in
general (see the counterexample). -/
theorem c6_idempotence_amended (mv : SGeom → SGeom) (uu : List SGeom → SGeom)
    (ps : List RPoly) (w : List String)
    (hne : isEmptySG (SGeom.mpoly ps) = false)
    (hfix : uu [mv (SGeom.mpoly ps)] = SGeom.mpoly ps)
    (hholes : ∀ p ∈ ps, ∀ r ∈ p.holes, holeThresh ≤ ringArea r) :
    cleanGeometry mv uu (SGeom.mpoly ps) w = .ok (ps, w) := by
  unfold cleanGeometry
  rw [hfix]
  show (if isEmptySG (SGeom.mpoly ps) = true then (.error emptyAfterUnionMsg : Except String (List RPoly × List String))
        else .ok (ps.foldl cleanStep ([], w))) = .ok (ps, w)
  rw [hne]
  rw [if_neg (by simp)]
  rw [cleanFold_keep ps [] w hholes]
  simp

/-- C6 amended witness: on the one-square region set with identity
make_valid and singleton union, re-running the cleanup returns it
unchanged. -/
theorem c6_idempotence_amended_witness :
    cleanGeometry id (fun gs => gs.headD (SGeom.mpoly [])) (SGeom.mpoly [sq10]) [] =
      .ok ([sq10], []) :=
  c6_idempotence_amended id (fun gs => gs.headD (SGeom.mpoly [])) [sq10] []
    (by decide) rfl (by with_unfolding_all decide)

set_option maxRecDepth 40000 in
/-- C6 counterexample: region A (a square with a sub-threshold hole) plus
region B (an island inside that hole) is a valid disjoint region set; the
first _clean_geometry run fills the hole of A and keeps B as a separate
region, but on the second run the union absorbs B into the now-filled A, so
re-running the normalizer on its own output changes the region set. -/
theorem c6_idempotence_cx :
    cleanGeometry mvAbs uuAbs c6X [] = .ok ([c6Afill, c6B], [holeMsg 1]) ∧
    cleanGeometry mvAbs uuAbs (SGeom.mpoly [c6Afill, c6B]) [] = .ok ([c6Afill], []) ∧
    ([c6Afill] ≠ [c6Afill, c6B]) := by
  refine ⟨by with_unfolding_all rfl, by with_unfolding_all rfl, by decide⟩

/-- Multiplication by a nonnegative factor commutes with min. -/
theorem qmin_mul (s a b : ℚ) (hs : 0 ≤ s) : min (s * a) (s * b) = s * min a b := by
  rcases le_total a b with h | h
  · rw [min_eq_left (mul_le_mul_of_nonneg_left h hs), min_eq_left h]
  · rw [min_eq_right (mul_le_mul_of_nonneg_left h hs), min_eq_right h]

/-- Multiplication by a nonnegative factor commutes with max. -/
theorem qmax_mul (s a b : ℚ) (hs : 0 ≤ s) : max (s * a) (s * b) = s * max a b := by
  rcases le_total a b with h | h
  · rw [max_eq_right (mul_le_mul_of_nonneg_left h hs), max_eq_right h]
  · rw [max_eq_left (mul_le_mul_of_nonneg_left h hs), max_eq_left h]

/-- The bounds fold commutes with a translation of all points. -/
theorem bfold_shift (t1 t2 : ℚ) (l : List Pt) :
    ∀ a b c d : ℚ,
      bfold (l.map fun q => (q.1 + t1, q.2 + t2)) (a + t1, b + t2, c + t1, d + t2) =
        shift4 t1 t2 (bfold l (a, b, c, d)) := by
  induction l with
  | nil => intro a b c d; rfl
  | cons p ps ih =>
    intro a b c d
    simp only [List.map_cons, bfold]
    rw [min_add_add_right, min_add_add_right, max_add_add_right, max_add_add_right]
    exact ih _ _ _ _

/-- The bounds fold commutes with a nonnegative uniform scaling. -/
theorem bfold_scale (s : ℚ) (hs : 0 ≤ s) (l : List Pt) :
    ∀ a b c d : ℚ,
      bfold (l.map fun q => (s * q.1, s * q.2)) (s * a, s * b, s * c, s * d) =
        scale4 s (bfold l (a, b, c, d)) := by
  induction l with
  | nil => intro a b c d; rfl
  | cons p ps ih =>
    intro a b c d
    simp only [List.map_cons, bfold]
    rw [qmin_mul s a p.1 hs, qmin_mul s b p.2 hs, qmax_mul s c p.1 hs, qmax_mul s d p.2 hs]
    exact ih _ _ _ _

/-- Bounds of a translated vertex list. -/
theorem boundsOf_shift (t1 t2 : ℚ) (l : List Pt) :
    boundsOf (l.map fun q => (q.1 + t1, q.2 + t2)) = (boundsOf l).map (shift4 t1 t2) := by
  cases l with
  | nil => rfl
  | cons p ps =>
    simp only [List.map_cons, boundsOf, Option.map_some]
    exact congrArg some (bfold_shift t1 t2 ps p.1 p.2 p.1 p.2)

/-- Bounds of a scaled vertex list. -/
theorem boundsOf_scale (s : ℚ) (hs : 0 ≤ s) (l : List Pt) :
    boundsOf (l.map fun q => (s * q.1, s * q.2)) = (boundsOf l).map (scale4 s) := by
  cases l with
  | nil => rfl
  | cons p ps =>
    simp only [List.map_cons, boundsOf, Option.map_some]
    exact congrArg some (bfold_scale s hs ps p.1 p.2 p.1 p.2)

/-- Vertices of a pointwise-mapped polygon. -/
theorem vertsP_map (f : Pt → Pt) (p : RPoly) :
    vertsP (mapPtsP f p) = (vertsP p).map f := by
  simp [vertsP, mapPtsP, List.map_flatten]

/-- Vertices of a pointwise-mapped multipolygon. -/
theorem vertsMP_map (f : Pt → Pt) (ps : List RPoly) :
    vertsMP (ps.map (mapPtsP f)) = (vertsMP ps).map f := by
  simp only [vertsMP, List.map_map, List.map_flatten]
  congr 1
  simp [Function.comp_def, vertsP_map]

/-- Composition of pointwise polygon maps. -/
theorem mapPtsP_comp (f g : Pt → Pt) (p : RPoly) :
    mapPtsP f (mapPtsP g p) = mapPtsP (fun q => f (g q)) p := by
  simp [mapPtsP, List.map_map, Function.comp_def]

/-- C5: for geometry with bounds (mnx, mny, mxx, mxy) of positive width and
height and a positive target, the scaler/centerer returns the geometry mapped
pointwise by q to s*q - s*center (a uniform scaling by
s = target / max(width, height) followed by the centering translation), with
the downscale warning appended exactly when s is below 0.5; the bounding box
of the output is centered at the origin; and a zero width or height fails
with the DegenerateBounds error. -/
theorem c5_normalize_scale_center (ps : List RPoly) (target : ℚ) (w : List String)
    (mnx mny mxx mxy : ℚ)
    (hB : boundsOf (vertsMP ps) = some (mnx, mny, mxx, mxy)) :
    (∀ s cx cy, s = target / max (mxx - mnx) (mxy - mny) →
      cx = s * ((mnx + mxx) / 2) → cy = s * ((mny + mxy) / 2) →
      0 < mxx - mnx → 0 < mxy - mny → 0 < target →
      normalizeToSize ps target w =
        .ok (ps.map (mapPtsP fun q => (s * q.1 - cx, s * q.2 - cy)),
          if s < 1 / 2 then w ++ [scaleWarnMsg] else w) ∧
      (∃ a b c d,
        boundsOf (vertsMP (ps.map (mapPtsP fun q => (s * q.1 - cx, s * q.2 - cy)))) =
          some (a, b, c, d) ∧ a + c = 0 ∧ b + d = 0)) ∧
    ((mxx - mnx = 0 ∨ mxy - mny = 0) →
      normalizeToSize ps target w = .error degenerateBoundsMsg) := by
  constructor
  · intro s cx cy hsd hcxd hcyd hw hh ht
    have hmax : 0 < max (mxx - mnx) (mxy - mny) := lt_max_iff.mpr (Or.inl hw)
    have hs : 0 < s := by rw [hsd]; exact div_pos ht hmax
    have hcomp : (fun q : Pt => (s * q.1 - cx, s * q.2 - cy)) =
        (fun q : Pt => (q.1 + -cx, q.2 + -cy)) ∘ (fun q : Pt => (s * q.1, s * q.2)) := by
      funext q
      simp [Function.comp_def, sub_eq_add_neg]
    have hbout : boundsOf (vertsMP (ps.map (mapPtsP fun q => (s * q.1 - cx, s * q.2 - cy)))) =
        some (s * mnx + -cx, s * mny + -cy, s * mxx + -cx, s * mxy + -cy) := by
      rw [vertsMP_map, hcomp, ← List.map_map, boundsOf_shift, boundsOf_scale s hs.le, hB]
      rfl
    refine ⟨?_, _, _, _, _, hbout, by rw [hcxd]; ring, by rw [hcyd]; ring⟩
    unfold normalizeToSize
    rw [hB]
    dsimp only
    rw [← hsd]
    rw [if_neg (by rw [not_or, not_le, not_le]; exact ⟨hw, hh⟩)]
    rw [if_neg (not_le.mpr hs)]
    have hps1 : boundsOf (vertsMP (ps.map (mapPtsP fun q => (s * q.1, s * q.2)))) =
        some (s * mnx, s * mny, s * mxx, s * mxy) := by
      rw [vertsMP_map, boundsOf_scale s hs.le, hB]
      rfl
    rw [hps1]
    dsimp only
    have hc2 : (s * mnx + s * mxx) / 2 = cx := by rw [hcxd]; ring
    have hc3 : (s * mny + s * mxy) / 2 = cy := by rw [hcyd]; ring
    rw [hc2, hc3]
    congr 1
    refine Prod.ext ?_ rfl
    show (ps.map (mapPtsP fun q => (s * q.1, s * q.2))).map
        (mapPtsP fun q => (q.1 - cx, q.2 - cy)) = _
    rw [List.map_map]
    apply List.map_congr_left
    intro p _
    rw [Function.comp_apply, mapPtsP_comp]
  · intro h
    unfold normalizeToSize
    rw [hB]
    dsimp only
    rw [if_pos (by rcases h with h | h; exacts [Or.inl (le_of_eq h), Or.inr (le_of_eq h)])]

/-- C5 witness: a 4 by 2 rectangle normalized to target 8 is scaled by 2 and
centered at the origin (scale factor 2 is at least 0.5, so no warning). -/
theorem c5_normalize_scale_center_witness :
    normalizeToSize [⟨sqRing 0 0 4 2, []⟩] 8 [] =
      .ok ([⟨sqRing (-4) (-2) 4 2, []⟩], []) :=
  (((c5_normalize_scale_center [⟨sqRing 0 0 4 2, []⟩] 8 [] 0 0 4 2
        (by with_unfolding_all rfl)).1
      _ _ _ rfl rfl rfl (by norm_num) (by norm_num) (by norm_num)).1).trans
    (by with_unfolding_all rfl)

/-- The base slab of a successful pre-mode pipeline run is always the
size-by-size box of the base height, lifted so it rests on z = 0. -/
theorem convertPre_base (K : Kernel) (e : Except String (List SGeom))
    (s b r ml : ℚ) (pre : PreOut K.M)
    (h : convertPre K e s b r ml = .ok pre) :
    pre.base = K.translateM (K.box s s b) 0 0 (b / 2) := by
  cases e with
  | error msg => exact absurd h (by simp [convertPre, mbind_err])
  | ok raws =>
    unfold convertPre at h
    rw [mbind_ok] at h
    dsimp only at h
    cases h1 : cleanGeometry K.mkValid K.uUnion (K.uUnion (convShapes K raws ml)) [] with
    | error m => rw [h1, mbind_err] at h; exact absurd h (by simp)
    | ok v1 =>
      obtain ⟨ps1, w1⟩ := v1
      rw [h1, mbind_ok] at h
      cases h2 : normalizeToSize ps1 s w1 with
      | error m => rw [h2, mbind_err] at h; exact absurd h (by simp)
      | ok v2 =>
        obtain ⟨ps2, w2⟩ := v2
        rw [h2, mbind_ok] at h
        cases h3 : bufferToMinLine K (SGeom.mpoly ps2) ml w2 with
        | error m => rw [h3, mbind_err] at h; exact absurd h (by simp)
        | ok v3 =>
          obtain ⟨g3, w3⟩ := v3
          rw [h3, mbind_ok] at h
          cases h4 : cleanGeometry K.mkValid K.uUnion g3 w3 with
          | error m => rw [h4, mbind_err] at h; exact absurd h (by simp)
          | ok v4 =>
            obtain ⟨ps4, w4⟩ := v4
            rw [h4, mbind_ok] at h
            cases h5 : reliefLoop K ps4 r b with
            | error m => rw [h5, mbind_err] at h; exact absurd h (by simp)
            | ok ms =>
              rw [h5, mbind_ok] at h
              split at h
              · exact absurd h (by simp)
              · rw [Except.ok.injEq] at h
                rw [← h]

/-- C8 amended: in engraved mode the cutter is the relief translated down by
exactly the relief height and the result is the boolean difference of slab
and cutter when the boolean engine exists - hence, under the point-set mesh
semantics (KSet), no point of the output lies above z = base height; the
bounding-box height can be strictly below the base height when the relief
covers the entire top face (see the counterexample), so equality does not
hold in general.  Without the boolean engine, the unmodified base slab is
returned and the engraving warning is appended. -/
theorem c8_engraved_behaviour :
    (∀ (K : Kernel) (e : Except String (List SGeom)) (s b r ml : ℚ)
       (m : K.M) (rep : DReportQ),
      convertSvgToStl K e s (some "engraved") b r ml = .ok (m, rep) →
      ∃ pre : PreOut K.M, convertPre K e s b r ml = .ok pre ∧
        pre.base = K.translateM (K.box s s b) 0 0 (b / 2) ∧
        (K.scadExists = true →
          m = K.processM (K.boolDiff [pre.base, K.translateM pre.relief 0 0 (-r)]) ∧
          rep.warnings = pre.warnings) ∧
        (K.scadExists = false →
          m = K.processM pre.base ∧
          rep.warnings = pre.warnings ++ [scadEngravedWarnMsg])) ∧
    (∀ (e : Except String (List SGeom)) (s b r ml : ℚ) (m : MeshS) (rep : DReportQ),
      convertSvgToStl KSet e s (some "engraved") b r ml = .ok (m, rep) →
      ∀ q ∈ m, q.2.2 ≤ b) := by
  have main : ∀ (K : Kernel) (e : Except String (List SGeom)) (s b r ml : ℚ)
      (m : K.M) (rep : DReportQ),
      convertSvgToStl K e s (some "engraved") b r ml = .ok (m, rep) →
      ∃ pre : PreOut K.M, convertPre K e s b r ml = .ok pre ∧
        pre.base = K.translateM (K.box s s b) 0 0 (b / 2) ∧
        (K.scadExists = true →
          m = K.processM (K.boolDiff [pre.base, K.translateM pre.relief 0 0 (-r)]) ∧
          rep.warnings = pre.warnings) ∧
        (K.scadExists = false →
          m = K.processM pre.base ∧
          rep.warnings = pre.warnings ++ [scadEngravedWarnMsg]) := by
    intro K e s b r ml m rep h
    unfold convertSvgToStl at h
    cases hpre : convertPre K e s b r ml with
    | error msg => rw [hpre, ebind_err] at h; exact absurd h (by simp)
    | ok pre =>
      rw [hpre, ebind_ok] at h
      refine ⟨pre, rfl, convertPre_base K e s b r ml pre hpre, ?_, ?_⟩
      · intro hsc
        unfold convertPost at h
        rw [show modeNorm (some "engraved") = "engraved" from by decide] at h
        rw [if_pos (by decide)] at h
        rw [show modeCombine K pre r "engraved" =
            (K.boolDiff [pre.base, K.translateM pre.relief 0 0 (-r)], pre.warnings) from by
          unfold modeCombine
          rw [if_neg (by decide), if_pos hsc]] at h
        split at h
        · exact absurd h (by simp)
        · rw [Except.ok.injEq, Prod.mk.injEq] at h
          exact ⟨h.1.symm, by rw [← h.2]⟩
      · intro hsc
        unfold convertPost at h
        rw [show modeNorm (some "engraved") = "engraved" from by decide] at h
        rw [if_pos (by decide)] at h
        rw [show modeCombine K pre r "engraved" =
            (pre.base, pre.warnings ++ [scadEngravedWarnMsg]) from by
          unfold modeCombine
          rw [if_neg (by decide), if_neg (by rw [hsc]; exact Bool.false_ne_true)]] at h
        split at h
        · exact absurd h (by simp)
        · rw [Except.ok.injEq, Prod.mk.injEq] at h
          exact ⟨h.1.symm, by rw [← h.2]⟩
  refine ⟨main, ?_⟩
  intro e s b r ml m rep h q hq
  obtain ⟨pre, hpre, hbase, hsc, -⟩ := main KSet e s b r ml m rep h
  obtain ⟨hm, -⟩ := hsc rfl
  rw [hm] at hq
  have hq2 : q ∈ toMesh pre.base ∧
      q ∉ meshUnion [toMesh (KSet.translateM pre.relief 0 0 (-r))] := hq
  have hq4 : q ∈ toMesh (KSet.translateM (KSet.box s s b) 0 0 (b / 2)) := by
    rw [← hbase]
    exact hq2.1
  have hmem : -(s / 2) ≤ q.1 - 0 ∧ q.1 - 0 ≤ s / 2 ∧ -(s / 2) ≤ q.2.1 - 0 ∧
      q.2.1 - 0 ≤ s / 2 ∧ -(b / 2) ≤ q.2.2 - b / 2 ∧ q.2.2 - b / 2 ≤ b / 2 := hq4
  linarith [hmem.2.2.2.2.2]

/-- The engraved full-coverage run without the boolean engine returns the
bare base slab and the fallback warning. -/
theorem c8eqNS_run :
    convertSvgToStl KSetNoScad (.ok [SGeom.poly sq10]) 30 (some "engraved") 7 (11 / 5) (7 / 5) =
      .ok (c8base, c8repNS) := by
  with_unfolding_all rfl

/-- C8 counterexample: for the filled 10 by 10 square rect, the relief
covers the entire slab top, so the engraved output (slab minus sunk cutter)
has every point strictly below z = 24/5, while the base height is 7: the
bounding-box height of the output mesh is not equal to the base height. -/
theorem c8_engraved_height_cx :
    convertSvgToStl KSet (.ok [SGeom.poly sq10]) 30 (some "engraved") 7 (11 / 5) (7 / 5) =
      .ok (c8m, c8rep) ∧
    (((0, 0, 0) : ℚ × ℚ × ℚ) ∈ c8m) ∧
    (∀ q ∈ c8m, q.2.2 < 24 / 5) ∧
    ((24 : ℚ) / 5 < 7) := by
  have hb : ∀ q : ℚ × ℚ × ℚ, q ∈ c8base ↔
      (-(30 / 2 : ℚ) ≤ q.1 - 0 ∧ q.1 - 0 ≤ 30 / 2 ∧ -(30 / 2 : ℚ) ≤ q.2.1 - 0 ∧
       q.2.1 - 0 ≤ 30 / 2 ∧ -(7 / 2 : ℚ) ≤ q.2.2 - 7 / 2 ∧ q.2.2 - 7 / 2 ≤ 7 / 2) :=
    fun q => Iff.rfl
  have hc : ∀ q : ℚ × ℚ × ℚ, q ∈ c8cutter ↔
      ((q.1 - 0, q.2.1 - 0, q.2.2 - -(11 / 5)) ∈ (∅ : MeshS) ∪
        {p : ℚ × ℚ × ℚ | (p.1 - 0, p.2.1 - 0, p.2.2 - 7) ∈ c8prism}) :=
    fun q => Iff.rfl
  have hp : ∀ p : ℚ × ℚ × ℚ, p ∈ c8prism ↔
      (p ∈ rectPrism (-15) (-15) 15 15 (11 / 5) ∧ p ∉ meshUnion []) := fun p => Iff.rfl
  have hr : ∀ p : ℚ × ℚ × ℚ, p ∈ rectPrism (-15) (-15) 15 15 (11 / 5) ↔
      ((-15 : ℚ) ≤ p.1 ∧ p.1 ≤ 15 ∧ (-15 : ℚ) ≤ p.2.1 ∧ p.2.1 ≤ 15 ∧
       (0 : ℚ) ≤ p.2.2 ∧ p.2.2 ≤ 11 / 5) := fun p => Iff.rfl
  have hm6 : ∀ q : ℚ × ℚ × ℚ, q ∈ c8m ↔ (q ∈ c8base ∧ q ∉ (∅ : MeshS) ∪ c8cutter) :=
    fun q => Iff.rfl
  have hemp : ∀ p : ℚ × ℚ × ℚ, p ∈ (meshUnion [] : MeshS) ↔ False :=
    fun p => Iff.rfl
  refine ⟨c8eq_run, ?_, ?_, by norm_num⟩
  · rw [hm6]
    refine ⟨(hb _).mpr (by norm_num), ?_⟩
    intro hx
    rcases Set.mem_union .. |>.mp hx with hx | hx
    · exact Set.not_mem_empty _ hx
    · have h2 := (hc _).mp hx
      rcases Set.mem_union .. |>.mp h2 with h3 | h3
      · exact Set.not_mem_empty _ h3
      · have h4 := ((hr _).mp ((hp _).mp h3).1).2.2.2.2.1
        norm_num at h4
  · intro q hq
    obtain ⟨hqb, hqn⟩ := (hm6 q).mp hq
    have hbq := (hb q).mp hqb
    by_contra hlt
    push_neg at hlt
    apply hqn
    apply Set.mem_union_right
    rw [hc]
    apply Set.mem_union_right
    refine Set.mem_setOf_eq ▸ ((hp _).mpr ⟨(hr _).mpr ?_, fun hfalse => (hemp _).mp hfalse⟩)
    refine ⟨by linarith [hbq.1], by linarith [hbq.2.1], by linarith [hbq.2.2.1],
      by linarith [hbq.2.2.2.1], by linarith [hlt], by linarith [hbq.2.2.2.2.2]⟩

/-- C8 witness: at the full-coverage engraved run, the amended theorem bounds
the interior point (0, 0, 2) of the output solid by the base height, and the
boolean-free run appends exactly the fallback warning. -/
theorem c8_engraved_behaviour_witness :
    (2 : ℚ) ≤ 7 ∧ c8repNS.warnings = [] ++ [scadEngravedWarnMsg] := by
  constructor
  · have hm6 : ∀ q : ℚ × ℚ × ℚ, q ∈ c8m ↔ (q ∈ c8base ∧ q ∉ (∅ : MeshS) ∪ c8cutter) :=
      fun q => Iff.rfl
    have hb : ∀ q : ℚ × ℚ × ℚ, q ∈ c8base ↔
        (-(30 / 2 : ℚ) ≤ q.1 - 0 ∧ q.1 - 0 ≤ 30 / 2 ∧ -(30 / 2 : ℚ) ≤ q.2.1 - 0 ∧
         q.2.1 - 0 ≤ 30 / 2 ∧ -(7 / 2 : ℚ) ≤ q.2.2 - 7 / 2 ∧ q.2.2 - 7 / 2 ≤ 7 / 2) :=
      fun q => Iff.rfl
    have hc : ∀ q : ℚ × ℚ × ℚ, q ∈ c8cutter ↔
        ((q.1 - 0, q.2.1 - 0, q.2.2 - -(11 / 5)) ∈ (∅ : MeshS) ∪
          {p : ℚ × ℚ × ℚ | (p.1 - 0, p.2.1 - 0, p.2.2 - 7) ∈ c8prism}) :=
      fun q => Iff.rfl
    have hp : ∀ p : ℚ × ℚ × ℚ, p ∈ c8prism ↔
        (p ∈ rectPrism (-15) (-15) 15 15 (11 / 5) ∧ p ∉ meshUnion []) := fun p => Iff.rfl
    have hr : ∀ p : ℚ × ℚ × ℚ, p ∈ rectPrism (-15) (-15) 15 15 (11 / 5) ↔
        ((-15 : ℚ) ≤ p.1 ∧ p.1 ≤ 15 ∧ (-15 : ℚ) ≤ p.2.1 ∧ p.2.1 ≤ 15 ∧
         (0 : ℚ) ≤ p.2.2 ∧ p.2.2 ≤ 11 / 5) := fun p => Iff.rfl
    have hmem : ((0, 0, 2) : ℚ × ℚ × ℚ) ∈ c8m := by
      rw [hm6]
      refine ⟨(hb _).mpr (by norm_num), ?_⟩
      intro hx
      rcases Set.mem_union .. |>.mp hx with hx | hx
      · exact Set.not_mem_empty _ hx
      · have h2 := (hc _).mp hx
        rcases Set.mem_union .. |>.mp h2 with h3 | h3
        · exact Set.not_mem_empty _ h3
        · have h4 := ((hr _).mp ((hp _).mp h3).1).2.2.2.2.1
          norm_num at h4
    exact c8_engraved_behaviour.2 (.ok [SGeom.poly sq10]) 30 7 (11 / 5) (7 / 5)
      c8m c8rep c8eq_run (0, 0, 2) hmem
  · obtain ⟨pre, hpre, -, -, hf⟩ := c8_engraved_behaviour.1 KSetNoScad
      (.ok [SGeom.poly sq10]) 30 7 (11 / 5) (7 / 5) c8base c8repNS c8eqNS_run
    have hpre2 : convertPre KSetNoScad (.ok [SGeom.poly sq10]) 30 7 (11 / 5) (7 / 5) =
        .ok c8pre := by
      with_unfolding_all rfl
    rw [hpre2] at hpre
    have hpe : c8pre = pre := Except.ok.inj hpre
    have hw := (hf rfl).2
    rw [← hpe] at hw
    exact hw

/-- C3 amended witness: even with a shape converter that recognizes a valid
square in every element, the drawing with the data:text/plain href still
fails with the UnsupportedContent error. -/
theorem c3_raster_rejection_amended_witness :
    extractGeometry (fun _ => some (SGeom.poly sq10)) c3root = .error rasterMsg :=
  ((c3_raster_rejection_amended c3root).2 (fun _ => some (SGeom.poly sq10))).mpr (by decide)
